import Mathlib

/-
  Verification of the knowledge-graph builder core.

  Shallow embedding of the extraction and reconciliation engine:
  - src/lib/enhanced-neo4j-service.ts   (graph reconciler over the store)
  - src/unnamed/part_002                (LocalNLPProcessor, rule-based extraction)
  - src/app/api/websocket/route.ts      (GeminiNLPProcessor filters and denylists)
  - src/lib/hybrid-nlp-processor.ts     (HybridNLPProcessor coordinator)
  - src/unnamed/part_001                (process-text POST route, response tag)

  Modelling conventions:
  - JS strings are Lean Strings; the code only manipulates ASCII data, so
    toLowerCase and toUpperCase are modelled as ASCII case folds.
  - JS numbers holding confidences are modelled as rationals; concrete
    literals are built with Rat.mk1 in normal form so that kernel
    evaluation works.
  - Property bags (Record<string, any>) are association lists whose
    leftmost binding for a key is the current value of that key.
  - The Neo4j store is a list of nodes and a list of edges in insertion
    order; a Cypher query with LIMIT 1 and no ORDER BY returns the first
    stored row, which is the insertion-order behaviour of an unindexed
    store.  datetime() stamps (created_at, updated_at) are opaque to every
    claim and are left out of the node and edge records.
  - JS regular expressions are embedded through an explicit backtracking
    matcher (greedy, leftmost, alternation tried left to right) over a
    regex syntax tree; each pattern of the source is transcribed node by
    node below.
-/

/-! ### ASCII character and string helpers (JS string primitives) -/

/-- ASCII case fold, modelling JS String.prototype.toLowerCase on the
ASCII inputs this program handles. -/
def lowerChar (c : Char) : Char :=
  if 'A' ≤ c && c ≤ 'Z' then Char.ofNat (c.toNat + 32) else c

/-- ASCII upper case, modelling JS String.prototype.toUpperCase. -/
def upperChar (c : Char) : Char :=
  if 'a' ≤ c && c ≤ 'z' then Char.ofNat (c.toNat - 32) else c

def isAsciiLetter (c : Char) : Bool :=
  ('a' ≤ c && c ≤ 'z') || ('A' ≤ c && c ≤ 'Z')

def isDigitChar (c : Char) : Bool :=
  '0' ≤ c && c ≤ '9'

/-- JS regex word character class, backslash-w = [A-Za-z0-9_]. -/
def isWordChar (c : Char) : Bool :=
  ('a' ≤ c && c ≤ 'z') || ('A' ≤ c && c ≤ 'Z') || ('0' ≤ c && c ≤ '9') || c == '_'

/-- JS regex whitespace class, restricted to the ASCII whitespace that can
occur in the processed text. -/
def isSpaceChar (c : Char) : Bool :=
  c == ' ' || c == '\t' || c == '\n' || c == '\r'

/-- JS String.prototype.toLowerCase. -/
def lowerStr (s : String) : String :=
  String.mk (s.data.map lowerChar)

/-- JS String.prototype.trim. -/
def trimStr (s : String) : String :=
  String.mk (((s.data.dropWhile isSpaceChar).reverse.dropWhile isSpaceChar).reverse)

def isPrefixChars : List Char → List Char → Bool
  | [], _ => true
  | _ :: _, [] => false
  | c :: cs, d :: ds => c == d && isPrefixChars cs ds

def containsSubGo (needle : List Char) : List Char → Bool
  | [] => isPrefixChars needle []
  | c :: cs => isPrefixChars needle (c :: cs) || containsSubGo needle cs

/-- JS String.prototype.includes. -/
def containsSub (hay needle : String) : Bool :=
  containsSubGo needle.data hay.data

/-- JS logical-or default for an optional string argument: the empty
string is falsy, so it also falls back to the default. -/
def jsOrStr (o : Option String) (d : String) : String :=
  match o with
  | none => d
  | some s => if s == "" then d else s

/-! ### Rationals for confidence values

Concrete confidences are built in normal form with Rat.mk1 so that the
kernel can evaluate comparisons; q08 is the source literal 0.8 and so on. -/

def q08 : ℚ := Rat.mk' 4 5
def q085 : ℚ := Rat.mk' 17 20
def q09 : ℚ := Rat.mk' 9 10
def q07 : ℚ := Rat.mk' 7 10
def q06 : ℚ := Rat.mk' 3 5

/-- JS logical-or default for an optional numeric argument, as in the
source expression entity.confidence || 0.8: an absent value and the falsy
number 0 both fall back to the default. -/
def jsOrQ (c : Option ℚ) (d : ℚ) : ℚ :=
  match c with
  | none => d
  | some x => if x.num == 0 then d else x

/-! ### Property bags -/

/-- A JS value stored in a property bag. -/
inductive PVal where
  | s (v : String)
  | b (v : Bool)
  | q (v : ℚ)
deriving DecidableEq

/-- Look up a key in an association-list property bag; the leftmost
binding wins. -/
def lookupProp (k : String) : List (String × PVal) → Option PVal
  | [] => none
  | kv :: rest => if kv.1 == k then some kv.2 else lookupProp k rest

/-- Shallow merge with the incoming map taking precedence, modelling both
the Cypher update n += map and the JS object spread.  Under lookupProp
the leftmost binding wins, so the incoming bindings are placed first. -/
def mergeProps (old incoming : List (String × PVal)) : List (String × PVal) :=
  incoming ++ old

/-! ### The persistent store (EnhancedNeo4jService)

Embedding of src/lib/enhanced-neo4j-service.ts.  A node carries the Neo4j
label (ntype), the label property, confidence, aliases and the remaining
properties; ids are store assigned. -/

structure Node where
  nid : Nat
  ntype : String
  nlabel : String
  nconfidence : ℚ
  naliases : List String
  nprops : List (String × PVal)
deriving DecidableEq

structure Edge where
  eid : Nat
  esrc : Nat
  etgt : Nat
  etype : String
  econfidence : ℚ
  eprops : List (String × PVal)
deriving DecidableEq

structure Graph where
  nodes : List Node
  edges : List Edge
  nextId : Nat
deriving DecidableEq

def emptyStore : Graph := { nodes := [], edges := [], nextId := 0 }

/-- Input of createEntityWithMerge, the TS Omit of Entity without id:
label, type, properties, optional confidence, optional aliases. -/
structure EntityIn where
  label : String
  type : String
  properties : List (String × PVal)
  confidence : Option ℚ
  aliases : Option (List String)
deriving DecidableEq

namespace EnhancedNeo4jService

/-- Embedding of findEntityByLabelAndType: MATCH (n:type) WHERE
toLower(n.label) = toLower(label) OR any alias matches case-folded,
RETURN n LIMIT 1. -/
def findEntityByLabelAndType (g : Graph) (label type : String) : Option Node :=
  g.nodes.find? (fun n =>
    n.ntype == type &&
      (lowerStr n.nlabel == lowerStr label ||
        n.naliases.any (fun al => lowerStr al == lowerStr label)))

/-- The ON MATCH SET branch of the MERGE in createEntityWithMerge:
confidence is raised only when the incoming effective confidence is
strictly greater, the incoming aliases (never null at the call site,
entity.aliases || []) are appended to the stored list, and the incoming
properties shallow-merge over the stored ones. -/
def applyOnMatch (n : Node) (e : EntityIn) : Node :=
  { n with
    nconfidence :=
      if n.nconfidence < jsOrQ e.confidence q08 then jsOrQ e.confidence q08 else n.nconfidence
    naliases := n.naliases ++ e.aliases.getD []
    nprops := mergeProps n.nprops e.properties }

/-- The ON CREATE SET branch of the MERGE in createEntityWithMerge. -/
def applyOnCreate (id : Nat) (e : EntityIn) : Node :=
  { nid := id, ntype := e.type, nlabel := e.label
  , nconfidence := jsOrQ e.confidence q08
  , naliases := e.aliases.getD []
  , nprops := e.properties }

/-- The MERGE key of createEntityWithMerge: exact type and exact label
match. -/
def mergeKey (e : EntityIn) (n : Node) : Bool :=
  n.ntype == e.type && n.nlabel == e.label

/-- MERGE (n:type {label: label}) applied to the node list: updates the
first node with the exact type and exact label, or reports none. -/
def upsertIntoList (e : EntityIn) : List Node → Option (Node × List Node)
  | [] => none
  | n :: rest =>
    if mergeKey e n then
      some (applyOnMatch n e, applyOnMatch n e :: rest)
    else
      match upsertIntoList e rest with
      | some (r, rest') => some (r, n :: rest')
      | none => none

/-- Embedding of createEntityWithMerge. -/
def createEntityWithMerge (g : Graph) (e : EntityIn) : Node × Graph :=
  match upsertIntoList e g.nodes with
  | some (r, nodes') => (r, { g with nodes := nodes' })
  | none =>
    (applyOnCreate g.nextId e,
      { g with nodes := g.nodes ++ [applyOnCreate g.nextId e], nextId := g.nextId + 1 })

/-- Embedding of the private findRelationship: first stored edge of the
given type whose endpoint ids are the given ids. -/
def findRelationship (g : Graph) (sourceId targetId : Nat) (type : String) : Option Edge :=
  g.edges.find? (fun e => e.etype == type && e.esrc == sourceId && e.etgt == targetId)

/-- Embedding of createRelationshipWithValidation.  Endpoints are first
resolved with findEntityByLabelAndType (case-insensitive label or alias
match); if either is missing the call returns none and leaves the graph
unchanged.  An existing edge of the same type between the resolved ids is
returned unchanged.  Otherwise the creation query matches nodes by EXACT
type and label (MATCH (a:sourceType {label: sourceLabel})), creates one
edge per matched pair, and returns the first created edge; when the exact
match finds nothing there are zero records and the call returns none.
The confidence parameter models properties.confidence of the call. -/
def createRelationshipWithValidation (g : Graph)
    (sourceLabel targetLabel sourceType targetType relationshipType : String)
    (properties : List (String × PVal)) (propsConfidence : Option ℚ) :
    Option Edge × Graph :=
  match findEntityByLabelAndType g sourceLabel sourceType,
        findEntityByLabelAndType g targetLabel targetType with
  | some sourceEntity, some targetEntity =>
    match findRelationship g sourceEntity.nid targetEntity.nid relationshipType with
    | some existingRel => (some existingRel, g)
    | none =>
      let as := g.nodes.filter (fun n => n.ntype == sourceType && n.nlabel == sourceLabel)
      let bs := g.nodes.filter (fun n => n.ntype == targetType && n.nlabel == targetLabel)
      let pairs := (as.map (fun a => bs.map (fun b => (a, b)))).flatten
      match pairs with
      | [] => (none, g)
      | p0 :: _ =>
        (some { eid := g.nextId, esrc := p0.1.nid, etgt := p0.2.nid
              , etype := relationshipType
              , econfidence := jsOrQ propsConfidence q08, eprops := properties }
        , { g with
            edges := g.edges ++ pairs.enum.map (fun pr =>
              { eid := g.nextId + pr.1, esrc := pr.2.1.nid, etgt := pr.2.2.nid
              , etype := relationshipType
              , econfidence := jsOrQ propsConfidence q08, eprops := properties })
          , nextId := g.nextId + pairs.length })
  | _, _ => (none, g)

end EnhancedNeo4jService

/-! ### Extraction data model -/

structure Entity where
  label : String
  type : String
  properties : List (String × PVal)
  confidence : ℚ
  aliases : List String
deriving DecidableEq

structure Relationship where
  source : String
  target : String
  type : String
  properties : List (String × PVal)
  confidence : ℚ
  context : String
deriving DecidableEq

structure ExtractionResult where
  entities : List Entity
  relationships : List Relationship
deriving DecidableEq

/-! ### Regex engine

A small backtracking matcher with JS semantics for the constructs the
source patterns use: greedy star, plus and option, alternation tried left
to right, leftmost match, word boundaries, capture groups, optional
case-insensitive flag. -/

inductive RE where
  | eps
  | wb
  | cUpper
  | cLower
  | cWord
  | cSpace
  | lit (s : String)
  | seq (a b : RE)
  | alt (a b : RE)
  | opt (a : RE)
  | star (a : RE)
  | plus (a : RE)
  | grp (i : Nat) (a : RE)

structure MSt where
  pos : Nat
  caps : List (Nat × Nat × Nat)

def wAt (txt : List Char) (i : Nat) : Bool :=
  match txt[i]? with
  | some c => isWordChar c
  | none => false

def wordBoundary (txt : List Char) (p : Nat) : Bool :=
  (if p = 0 then false else wAt txt (p - 1)) != wAt txt p

def matchLit (ci : Bool) (txt : List Char) : List Char → Nat → Option Nat
  | [], p => some p
  | c :: rest, p =>
    match txt[p]? with
    | some d =>
      if (if ci then lowerChar d == lowerChar c else d == c) then
        matchLit ci txt rest (p + 1)
      else none
    | none => none

def matchCls (txt : List Char) (p : Char → Bool) (st : MSt) (k : MSt → Option MSt) :
    Option MSt :=
  match txt[st.pos]? with
  | some c => if p c then k { st with pos := st.pos + 1 } else none
  | none => none

/-- Continuation-passing backtracking matcher.  The fuel bounds the depth
of the search; callers pass a fuel that is far larger than any reachable
depth, so exhaustion never occurs on the inputs evaluated here. -/
def mrun (txt : List Char) (ci : Bool) : Nat → RE → MSt → (MSt → Option MSt) → Option MSt
  | 0, _, _, _ => none
  | Nat.succ fuel, re, st, k =>
    match re with
    | .eps => k st
    | .wb => if wordBoundary txt st.pos then k st else none
    | .cUpper => matchCls txt (fun c => if ci then isAsciiLetter c else ('A' ≤ c && c ≤ 'Z')) st k
    | .cLower => matchCls txt (fun c => if ci then isAsciiLetter c else ('a' ≤ c && c ≤ 'z')) st k
    | .cWord => matchCls txt isWordChar st k
    | .cSpace => matchCls txt isSpaceChar st k
    | .lit s =>
      match matchLit ci txt s.data st.pos with
      | some p => k { st with pos := p }
      | none => none
    | .seq a b => mrun txt ci fuel a st (fun st1 => mrun txt ci fuel b st1 k)
    | .alt a b =>
      match mrun txt ci fuel a st k with
      | some r => some r
      | none => mrun txt ci fuel b st k
    | .opt a =>
      match mrun txt ci fuel a st k with
      | some r => some r
      | none => k st
    | .star a =>
      match mrun txt ci fuel a st
        (fun st1 => if st.pos < st1.pos then mrun txt ci fuel (.star a) st1 k else none) with
      | some r => some r
      | none => k st
    | .plus a => mrun txt ci fuel a st (fun st1 => mrun txt ci fuel (.star a) st1 k)
    | .grp i a =>
      mrun txt ci fuel a st (fun st1 => k { st1 with caps := (i, st.pos, st1.pos) :: st1.caps })

def sliceStr (txt : List Char) (s e : Nat) : String :=
  String.mk ((txt.drop s).take (e - s))

/-- One regex match: the full match text and the first two capture
groups, as JS match[0], match[1], match[2]. -/
structure RMatch where
  m0 : String
  g1 : Option String
  g2 : Option String
deriving DecidableEq

def capStr (txt : List Char) (caps : List (Nat × Nat × Nat)) (i : Nat) : Option String :=
  match caps.find? (fun t => t.1 == i) with
  | some t => some (sliceStr txt t.2.1 t.2.2)
  | none => none

def tryAt (ci : Bool) (re : RE) (txt : List Char) (pos : Nat) :
    Option (Nat × List (Nat × Nat × Nat)) :=
  match mrun txt ci ((txt.length + 32) * 8) re { pos := pos, caps := [] } some with
  | some st => some (st.pos, st.caps)
  | none => none

def findFrom (ci : Bool) (re : RE) (txt : List Char) :
    Nat → Nat → Option (Nat × Nat × List (Nat × Nat × Nat))
  | 0, _ => none
  | Nat.succ f, pos =>
    match tryAt ci re txt pos with
    | some (e, caps) => some (pos, e, caps)
    | none => if pos < txt.length then findFrom ci re txt f (pos + 1) else none

def execGo (ci : Bool) (re : RE) (txt : List Char) : Nat → Nat → List RMatch
  | 0, _ => []
  | Nat.succ f, pos =>
    match findFrom ci re txt (txt.length + 2) pos with
    | none => []
    | some (s, e, caps) =>
      { m0 := sliceStr txt s e, g1 := capStr txt caps 1, g2 := capStr txt caps 2 }
        :: execGo ci re txt f (if s < e then e else e + 1)

/-- All global matches of a pattern in order, as the JS exec loop while
((match = pattern.exec(text)) !== null) collects them. -/
def execAll (ci : Bool) (re : RE) (text : String) : List RMatch :=
  execGo ci re text.data (text.data.length + 2) 0

/-- Alternation of literal words, tried left to right as in the source
alternations. -/
def strAlt : List String → RE
  | [] => .eps
  | [w] => .lit w
  | w :: ws => .alt (.lit w) (strAlt ws)

/-- Insert into a sorted list, before the first element it may precede;
an element is placed before the elements it ties with, which gives
stability. -/
def insertSorted {α : Type} (le : α → α → Bool) (x : α) : List α → List α
  | [] => [x]
  | y :: ys => if le x y then x :: y :: ys else y :: insertSorted le x ys

/-- Stable sort by insertion.  Array.prototype.sort is stable and the
comparators of the source induce a total preorder, so the stable sorted
output is unique and this insertion sort computes exactly the JS sort
result. -/
def sortStable {α : Type} (le : α → α → Bool) : List α → List α
  | [] => []
  | x :: xs => insertSorted le x (sortStable le xs)

namespace LocalNLPProcessor

/-! Embedding of src/unnamed/part_002 (LocalNLPProcessor).  Each regex of
ENTITY_PATTERNS and RELATIONSHIP_PATTERNS is transcribed node by node;
the Bool of each entry is the case-insensitive flag of the source regex. -/

/-- The word [A-Z][a-z]+ fragment shared by several patterns. -/
def upperWord : RE := .seq .cUpper (.plus .cLower)

def spaces1 : RE := .plus .cSpace

/-- The fragment [A-Z][a-z]+(?:backslash-s+[A-Z][a-z]+)* of capitalized
word sequences. -/
def capSeq : RE := .seq upperWord (.star (.seq spaces1 upperWord))

/-- PERSON pattern 1 (no i flag): word-bounded capitalized name
sequences. -/
def personPat1 : RE := .seq .wb (.seq (.grp 1 capSeq) .wb)

/-- PERSON pattern 2 (gi): honorific then name; note that group 1 is the
honorific, which is what the extractor stores as the label. -/
def personPat2 : RE :=
  .seq .wb (.seq (.grp 1 (strAlt ["Mr", "Mrs", "Dr", "Prof", "Sir", "Madam", "Miss"]))
    (.seq spaces1 (.grp 2 capSeq)))

/-- ORGANIZATION pattern 1 (gi): capitalized word then corporate suffix,
with the closing word boundary inside the group as in the source. -/
def orgPat1 : RE :=
  .seq .wb (.grp 1 (.seq upperWord (.seq spaces1
    (.seq (strAlt ["Inc", "Corp", "LLC", "Ltd", "Company", "University", "School", "College"])
      .wb))))

/-- ORGANIZATION pattern 2 (gi): company lexicon. -/
def orgPat2 : RE :=
  .seq .wb (.seq (.grp 1 (strAlt ["Google", "Microsoft", "Apple", "Tesla", "SpaceX", "OpenAI",
    "Facebook", "Amazon", "Netflix", "Uber"])) .wb)

/-- LOCATION pattern 1 (gi): capitalized word then place suffix. -/
def locPat1 : RE :=
  .seq .wb (.grp 1 (.seq upperWord (.seq spaces1
    (.seq (strAlt ["City", "State", "Country", "Street", "Avenue", "Road", "Place", "Park"])
      .wb))))

/-- LOCATION pattern 2 (gi): place lexicon. -/
def locPat2 : RE :=
  .seq .wb (.seq (.grp 1 (strAlt ["New York", "Los Angeles", "London", "Paris", "Tokyo",
    "Delhi", "Mumbai", "California", "Texas", "India", "USA", "America"])) .wb)

/-- FOOD pattern (gi): food lexicon. -/
def foodPat : RE :=
  .seq .wb (.seq (.grp 1 (strAlt ["apple", "mango", "banana", "orange", "pizza", "burger",
    "sandwich", "rice", "bread", "cake", "cookie", "chocolate", "ice cream", "coffee", "tea",
    "milk", "water", "juice"])) .wb)

/-- TECHNOLOGY pattern (gi). -/
def techPat : RE :=
  .seq .wb (.seq (.grp 1 (strAlt ["computer", "laptop", "phone", "smartphone", "tablet",
    "software", "app", "website", "internet", "AI", "robot", "drone"])) .wb)

/-- OBJECT pattern (gi). -/
def objectPat : RE :=
  .seq .wb (.seq (.grp 1 (strAlt ["car", "bike", "house", "book", "pen", "paper", "chair",
    "table", "door", "window", "bag", "box", "bottle", "cup", "glass"])) .wb)

/-- ENTITY_PATTERNS in the object-literal iteration order of
Object.entries: PERSON, ORGANIZATION, LOCATION, FOOD, TECHNOLOGY,
OBJECT.  The Bool is the i flag of the source regex. -/
def ENTITY_PATTERNS : List (String × List (Bool × RE)) :=
  [ ("PERSON", [(false, personPat1), (true, personPat2)])
  , ("ORGANIZATION", [(true, orgPat1), (true, orgPat2)])
  , ("LOCATION", [(true, locPat1), (true, locPat2)])
  , ("FOOD", [(true, foodPat)])
  , ("TECHNOLOGY", [(true, techPat)])
  , ("OBJECT", [(true, objectPat)]) ]

def wordPlus : RE := .plus .cWord

/-- The shared shape of the relationship rules: captured word, spaces,
verb alternation, spaces, captured word. -/
def relShape (verb : RE) : RE :=
  .seq (.grp 1 wordPlus) (.seq spaces1 (.seq verb (.seq spaces1 (.grp 2 wordPlus))))

structure RelPat where
  re : RE
  rtype : String
  confidence : ℚ

/-- RELATIONSHIP_PATTERNS in source order; every regex has the gi flags.
Verb alternations are transcribed literally, for example eats?|eating|ate
becomes eat, optional s, else eating, else ate. -/
def RELATIONSHIP_PATTERNS : List RelPat :=
  [ { re := relShape (.alt (.seq (.lit "eat") (.opt (.lit "s"))) (.alt (.lit "eating") (.lit "ate")))
    , rtype := "EATS", confidence := q09 }
  , { re := relShape (.alt (.seq (.lit "love") (.opt (.lit "s"))) (.alt (.lit "loving") (.lit "loved")))
    , rtype := "LOVES", confidence := q09 }
  , { re := relShape (.alt (.seq (.lit "like") (.opt (.lit "s"))) (.alt (.lit "liking") (.lit "liked")))
    , rtype := "LIKES", confidence := q09 }
  , { re := relShape (.alt (.seq (.lit "work") (.seq (.opt (.lit "s")) (.seq spaces1 (.lit "at"))))
        (.seq (.lit "employed") (.seq spaces1 (.lit "by"))))
    , rtype := "WORKS_AT", confidence := q08 }
  , { re := relShape (.alt (.seq (.lit "live") (.seq (.opt (.lit "s")) (.seq spaces1 (.lit "in"))))
        (.seq (.lit "reside") (.seq (.opt (.lit "s")) (.seq spaces1 (.lit "in")))))
    , rtype := "LIVES_IN", confidence := q08 }
  , { re := relShape (.alt (.seq (.lit "know") (.opt (.lit "s"))) (.alt (.lit "knowing") (.lit "knew")))
    , rtype := "KNOWS", confidence := q08 }
  , { re := relShape (.alt (.seq (.lit "own") (.opt (.lit "s"))) (.alt (.lit "owning") (.lit "owned")))
    , rtype := "OWNS", confidence := q08 }
  , { re := relShape (.alt (.seq (.lit "use") (.opt (.lit "s"))) (.alt (.lit "using") (.lit "used")))
    , rtype := "USES", confidence := q08 }
  , { re := relShape (strAlt ["has", "have", "having", "had"])
    , rtype := "HAS", confidence := q07 }
  , { re := relShape (.alt (.seq (.lit "read") (.opt (.lit "s"))) (.alt (.lit "reading") (.lit "read")))
    , rtype := "READS", confidence := q08 }
  , { re := relShape (.alt (.seq (.lit "drive") (.opt (.lit "s"))) (.alt (.lit "driving") (.lit "drove")))
    , rtype := "DRIVES", confidence := q08 }
  , { re := relShape (.alt (.seq (.lit "play") (.opt (.lit "s"))) (.alt (.lit "playing") (.lit "played")))
    , rtype := "PLAYS", confidence := q08 }
  , { re := relShape (.alt (.seq (.lit "teache") (.opt (.lit "s"))) (.alt (.lit "teaching") (.lit "taught")))
    , rtype := "TEACHES", confidence := q08 }
  , { re := relShape (.alt (.seq (.lit "studie") (.opt (.lit "s"))) (.alt (.lit "studying") (.lit "studied")))
    , rtype := "STUDIES", confidence := q08 }
  , { re := .seq (.grp 1 wordPlus) (.seq spaces1 (.seq (strAlt ["is", "are", "was", "were"])
        (.seq spaces1 (.seq (.opt (strAlt ["a", "an", "the"])) (.seq (.star .cSpace) (.grp 2 wordPlus))))))
    , rtype := "IS_A", confidence := q07 } ]

/-- The capitalized-word pass regex, word-bounded [A-Z][a-z]+ without the
i flag. -/
def capWordPat : RE := .seq .wb (.seq .cUpper (.seq (.plus .cLower) .wb))

/-- The common-noun pass regex, word-bounded [a-z]+ without the i flag. -/
def lowWordPat : RE := .seq .wb (.seq (.plus .cLower) .wb)

/-- Embedding of capitalizeFirst: first character upper-cased, the rest
lower-cased. -/
def capitalizeFirst (str : String) : String :=
  match str.data with
  | [] => ""
  | c :: rest => String.mk (upperChar c :: rest.map lowerChar)

def commonNamesList : List String :=
  ["ram", "john", "mary", "david", "sarah", "mike", "anna", "tom", "lisa", "alex", "sam",
   "emma", "jack", "lucy"]

/-- Embedding of guessEntityType. -/
def guessEntityType (word context : String) : String :=
  let lowerWord := lowerStr word
  let lowerContext := lowerStr context
  if containsSub lowerContext (lowerWord ++ " eats") ||
      containsSub lowerContext (lowerWord ++ " lives") then "PERSON"
  else if containsSub lowerContext ("eat " ++ lowerWord) ||
      containsSub lowerContext ("eating " ++ lowerWord) then "FOOD"
  else if commonNamesList.contains lowerWord then "PERSON"
  else "CONCEPT"

def commonNounsList : List String :=
  ["apple", "mango", "banana", "orange", "book", "car", "house", "dog", "cat", "computer",
   "phone", "table", "chair", "food", "water", "coffee", "tea", "pizza", "burger"]

/-- Embedding of isLikelyNoun. -/
def isLikelyNoun (word : String) : Bool :=
  commonNounsList.contains (lowerStr word)

/-- Pattern-battery stage of extractEntities: one pattern of one entity
type applied to all of its matches, threading the foundEntities set. -/
def entsFromMatches (text entityType : String) :
    List RMatch → List String → List Entity → List String × List Entity
  | [], found, acc => (found, acc)
  | m :: ms, found, acc =>
    let entityLabel := jsOrStr m.g1 m.m0
    let normalizedLabel := lowerStr (trimStr entityLabel)
    if 1 < normalizedLabel.length && !(found.contains normalizedLabel) then
      entsFromMatches text entityType ms (normalizedLabel :: found)
        (acc ++ [{ label := capitalizeFirst (trimStr entityLabel), type := entityType
                 , confidence := q085
                 , properties := [("context", .s text), ("extractedBy", .s "local-nlp")]
                 , aliases := [] }])
    else entsFromMatches text entityType ms found acc

def entsFromGroup (text entityType : String) :
    List (Bool × RE) → List String → List Entity → List String × List Entity
  | [], found, acc => (found, acc)
  | (ci, re) :: pats, found, acc =>
    let fa := entsFromMatches text entityType (execAll ci re text) found acc
    entsFromGroup text entityType pats fa.1 fa.2

def entsFromBattery (text : String) :
    List (String × List (Bool × RE)) → List String → List Entity → List String × List Entity
  | [], found, acc => (found, acc)
  | (entityType, pats) :: groups, found, acc =>
    let fa := entsFromGroup text entityType pats found acc
    entsFromBattery text groups fa.1 fa.2

/-- The capitalized-word pass of extractEntities. -/
def capWordsPass (text : String) :
    List String → List String → List Entity → List String × List Entity
  | [], found, acc => (found, acc)
  | word :: ws, found, acc =>
    let normalizedWord := lowerStr word
    if !(found.contains normalizedWord) && 2 < word.length then
      capWordsPass text ws (normalizedWord :: found)
        (acc ++ [{ label := word, type := guessEntityType word text, confidence := q07
                 , properties := [("context", .s text), ("extractedBy", .s "local-nlp"),
                     ("guessed", .b true)]
                 , aliases := [] }])
    else capWordsPass text ws found acc

/-- The common-noun pass of extractEntities. -/
def commonNounsPass (text : String) :
    List String → List String → List Entity → List String × List Entity
  | [], found, acc => (found, acc)
  | noun :: ns, found, acc =>
    if 2 < noun.length && !(found.contains noun) && isLikelyNoun noun then
      commonNounsPass text ns (noun :: found)
        (acc ++ [{ label := capitalizeFirst noun, type := "OBJECT", confidence := q06
                 , properties := [("context", .s text), ("extractedBy", .s "local-nlp"),
                     ("commonNoun", .b true)]
                 , aliases := [] }])
    else commonNounsPass text ns found acc

/-- Embedding of extractEntities: the fixed pattern battery, then the
capitalized-word pass, then the common-noun pass, each threading the
case-folded foundEntities set. -/
def extractEntities (text : String) : List Entity :=
  let fa1 := entsFromBattery text ENTITY_PATTERNS [] []
  let fa2 := capWordsPass text ((execAll false capWordPat text).map RMatch.m0) fa1.1 fa1.2
  let fa3 := commonNounsPass text ((execAll false lowWordPat text).map RMatch.m0) fa2.1 fa2.2
  fa3.2

def relsFromMatches (labels : List String) (p : RelPat) : List RMatch → List Relationship
  | [] => []
  | m :: ms =>
    let source := capitalizeFirst (trimStr (m.g1.getD ""))
    let target := capitalizeFirst (trimStr (m.g2.getD ""))
    if labels.contains (lowerStr source) && labels.contains (lowerStr target) &&
        lowerStr source != lowerStr target then
      { source := source, target := target, type := p.rtype, confidence := p.confidence
      , context := m.m0
      , properties := [("extractedBy", .s "local-nlp"), ("originalMatch", .s m.m0)] }
        :: relsFromMatches labels p ms
    else relsFromMatches labels p ms

def relsFromPats (text : String) (labels : List String) : List RelPat → List Relationship
  | [] => []
  | p :: ps => relsFromMatches labels p (execAll true p.re text) ++ relsFromPats text labels ps

/-- Embedding of extractRelationships: a match is kept only when both
captured tokens case-foldedly equal an already extracted entity label and
differ from each other. -/
def extractRelationships (text : String) (entities : List Entity) : List Relationship :=
  relsFromPats text (entities.map (fun e => lowerStr e.label)) RELATIONSHIP_PATTERNS

def filterEntitiesGo : List String → List Entity → List Entity
  | _, [] => []
  | seen, e :: rest =>
    let normalizedLabel := lowerStr e.label
    if 1 < normalizedLabel.length && !(seen.contains normalizedLabel) then
      e :: filterEntitiesGo (normalizedLabel :: seen) rest
    else filterEntitiesGo seen rest

/-- Embedding of filterEntities: case-folded dedup keeping labels longer
than one character, then a stable sort by confidence descending (the JS
comparator b.confidence - a.confidence under the stable Array sort). -/
def filterEntities (entities : List Entity) : List Entity :=
  sortStable (fun a b => b.confidence ≤ a.confidence) (filterEntitiesGo [] entities)

/-- Embedding of filterRelationships: both endpoints must survive among
the extracted entity labels case-foldedly, and the relationship must not
be a self loop. -/
def filterRelationships (relationships : List Relationship) (entities : List Entity) :
    List Relationship :=
  let entityLabels := entities.map (fun e => lowerStr e.label)
  relationships.filter (fun rel =>
    entityLabels.contains (lowerStr rel.source) &&
    entityLabels.contains (lowerStr rel.target) &&
    lowerStr rel.source != lowerStr rel.target)

/-- Embedding of extractEntitiesAndRelationships of the local
processor. -/
def extractEntitiesAndRelationships (text : String) : ExtractionResult :=
  let entities := extractEntities text
  let relationships := extractRelationships text entities
  { entities := filterEntities entities
  , relationships := filterRelationships relationships entities }

end LocalNLPProcessor

namespace GeminiNLPProcessor

/-! Embedding of the GeminiNLPProcessor filters of
src/app/api/websocket/route.ts.  The model call itself is a remote,
nondeterministic collaborator; the deterministic post-filters below are
what the claims are about. -/

def technicalTermsList : List String :=
  ["pdf", "docx", "file", "text", "document", "conversion", "selectable", "parsing",
   "extraction", "processing", "format", "content", "stream", "object", "implementation",
   "library", "javascript", "mammoth", "buffer", "array", "string", "method", "function",
   "class"]

/-- Embedding of isTechnicalTerm: some technical word is a case-folded
substring of the term. -/
def isTechnicalTerm (term : String) : Bool :=
  technicalTermsList.any (fun tech => containsSub (lowerStr term) (lowerStr tech))

/-- Embedding of isVeryGenericEntity; the regexes of the source are
anchored whole-string tests: the article and quantifier word lists with
the i flag, all-digit labels, and single-letter labels. -/
def isVeryGenericEntity (e : Entity) : Bool :=
  e.label == "" ||
  ["a", "an", "the", "this", "that", "these", "those"].contains (lowerStr e.label) ||
  ["very", "quite", "rather", "some", "any", "all"].contains (lowerStr e.label) ||
  (e.label != "" && e.label.data.all isDigitChar) ||
  (match e.label.data with
   | [c] => isAsciiLetter c
   | _ => false)

def filterEntitiesGo : List String → List Entity → List Entity
  | _, [] => []
  | seen, e :: rest =>
    if e.label == "" then filterEntitiesGo seen rest
    else
      let normalizedLabel := trimStr (lowerStr e.label)
      if isTechnicalTerm e.label then filterEntitiesGo seen rest
      else if 0 < normalizedLabel.length && !(seen.contains normalizedLabel) &&
          !(isVeryGenericEntity e) then
        e :: filterEntitiesGo (normalizedLabel :: seen) rest
      else filterEntitiesGo seen rest

/-- Embedding of the Gemini-side filterEntities: falsy and technical
labels are dropped, the normalized label must be non-empty, unseen and
not very generic; then the stable confidence-descending sort. -/
def filterEntities (entities : List Entity) : List Entity :=
  sortStable (fun a b => b.confidence ≤ a.confidence) (filterEntitiesGo [] entities)

/-- Embedding of the Gemini-side filterRelationships: falsy endpoints and
technical endpoints are dropped, both endpoints must be extracted entity
labels case-foldedly, the relationship must not be a self loop, and the
confidence must reach the 0.7 floor. -/
def filterRelationships (relationships : List Relationship) (entities : List Entity) :
    List Relationship :=
  let entityLabels := entities.map (fun e => lowerStr e.label)
  relationships.filter (fun rel =>
    rel.source != "" && rel.target != "" &&
    !(isTechnicalTerm rel.source) && !(isTechnicalTerm rel.target) &&
    entityLabels.contains (lowerStr rel.source) &&
    entityLabels.contains (lowerStr rel.target) &&
    lowerStr rel.source != lowerStr rel.target &&
    q07 ≤ rel.confidence)

end GeminiNLPProcessor

namespace HybridNLPProcessor

/-- Embedding of enhanceLocalResults: every entity and relationship of
the local result gets enhanced, originalText and processingMethod=local
spread into its properties. -/
def localStamp (text : String) : List (String × PVal) :=
  [("enhanced", .b true), ("originalText", .s text), ("processingMethod", .s "local")]

def enhanceLocalResults (result : ExtractionResult) (text : String) : ExtractionResult :=
  { entities := result.entities.map (fun entity =>
      { entity with properties := mergeProps entity.properties (localStamp text) })
  , relationships := result.relationships.map (fun relationship =>
      { relationship with properties := mergeProps relationship.properties (localStamp text) }) }

/-- Embedding of extractEntitiesAndRelationships of the hybrid
coordinator.  geminiConfigured models whether GEMINI_API_KEY is set;
gemini models the outcome of the Gemini call on this text: none when the
call throws (transport failure), some result when it returns.  The
Gemini result is used only when it is configured, succeeded and is
non-empty; every other case falls back to the local processor with the
enhancement stamp. -/
def extractEntitiesAndRelationships (geminiConfigured : Bool)
    (gemini : Option ExtractionResult) (text : String) : ExtractionResult :=
  if geminiConfigured then
    match gemini with
    | some result =>
      if 0 < result.entities.length || 0 < result.relationships.length then result
      else enhanceLocalResults (LocalNLPProcessor.extractEntitiesAndRelationships text) text
    | none => enhanceLocalResults (LocalNLPProcessor.extractEntitiesAndRelationships text) text
  else enhanceLocalResults (LocalNLPProcessor.extractEntitiesAndRelationships text) text

end HybridNLPProcessor

/-- Embedding of the processingMethod field of the process-text POST
response (src/unnamed/part_001): the tag is computed from the extracted
entity count, not from the strategy that ran. -/
def processingMethodTag (extracted : ExtractionResult) : String :=
  if 0 < extracted.entities.length then "gemini" else "local"

/-! ### Concrete instances used by the claim theorems and witnesses -/

/-- The input of the canonical extraction test of the spec. -/
def T9 : String := "Apple is founded by Steve Jobs. Elon Musk owns Tesla."

def c1e1 : EntityIn :=
  { label := "Apple", type := "COMPANY", properties := []
  , confidence := some (Rat.mk' 1 2), aliases := some [] }

def c1e2 : EntityIn :=
  { label := "Apple", type := "COMPANY", properties := []
  , confidence := some (Rat.mk' 0 1), aliases := some [] }

def c1g1 : Graph := (EnhancedNeo4jService.createEntityWithMerge emptyStore c1e1).2

def c2n0 : Node :=
  { nid := 0, ntype := "T", nlabel := "apple", nconfidence := 1, naliases := [], nprops := [] }

def c2n1 : Node :=
  { nid := 1, ntype := "T", nlabel := "Apple", nconfidence := 1, naliases := [], nprops := [] }

def c2n2 : Node :=
  { nid := 2, ntype := "U", nlabel := "Bob", nconfidence := 1, naliases := [], nprops := [] }

def c2g0 : Graph := { nodes := [c2n0, c2n1, c2n2], edges := [], nextId := 3 }

/-- One reconciliation call for the triple (Apple, R, Bob), repeated
verbatim in the C2 counterexample. -/
def c2call (g : Graph) : Option Edge × Graph :=
  EnhancedNeo4jService.createRelationshipWithValidation g "Apple" "Bob" "T" "U" "R" [] none

def c2wa : Node :=
  { nid := 0, ntype := "COMPANY", nlabel := "Apple", nconfidence := 1, naliases := []
  , nprops := [] }

def c2wb : Node :=
  { nid := 1, ntype := "PERSON", nlabel := "Steve", nconfidence := 1, naliases := []
  , nprops := [] }

def c2we : Edge :=
  { eid := 2, esrc := 0, etgt := 1, etype := "FOUNDED_BY", econfidence := 1, eprops := [] }

def c2wg : Graph := { nodes := [c2wa, c2wb], edges := [c2we], nextId := 3 }

def c4ents : List Entity :=
  [ { label := "Steve", type := "PERSON", properties := [], confidence := 1, aliases := [] }
  , { label := "Elon", type := "PERSON", properties := [], confidence := 1, aliases := [] }
  , { label := "Tesla", type := "COMPANY", properties := [], confidence := 1, aliases := [] } ]

def c4rel1 : Relationship :=
  { source := "Steve", target := "Tesla", type := "OWNS", properties := [], confidence := 1
  , context := "" }

def c4rel2 : Relationship :=
  { source := "Elon", target := "Tesla", type := "OWNS", properties := [], confidence := 1
  , context := "" }

def c6res : ExtractionResult :=
  { entities := [{ label := "Tesla", type := "COMPANY", properties := [], confidence := 1
                 , aliases := [] }]
  , relationships := [] }

def c7n : Node :=
  { nid := 0, ntype := "COMPANY", nlabel := "Apple", nconfidence := 1, naliases := ["x"]
  , nprops := [("p", .s "old"), ("q", .s "keep")] }

def c7g : Graph := { nodes := [c7n], edges := [], nextId := 1 }

def c7e : EntityIn :=
  { label := "Apple", type := "COMPANY", properties := [("p", .s "new")]
  , confidence := some 1, aliases := some ["y"] }

def c8bang : Entity :=
  { label := "!", type := "CONCEPT", properties := [], confidence := 1, aliases := [] }

def c8w : Entity :=
  { label := "Steve", type := "PERSON", properties := [], confidence := 1, aliases := [] }

def c10a : Node :=
  { nid := 0, ntype := "COMPANY", nlabel := "Apple", nconfidence := 1, naliases := []
  , nprops := [] }

def c10b : Node :=
  { nid := 1, ntype := "PERSON", nlabel := "Steve", nconfidence := 1, naliases := []
  , nprops := [] }

def c10e : Edge :=
  { eid := 2, esrc := 0, etgt := 1, etype := "OWNS", econfidence := 1, eprops := [] }

def c10g : Graph := { nodes := [c10a, c10b], edges := [c10e], nextId := 3 }

def c10wg : Graph := { nodes := [c10a, c10b], edges := [], nextId := 3 }

def c1we1 : EntityIn :=
  { label := "Tesla", type := "COMPANY", properties := []
  , confidence := some 1, aliases := some [] }

def c1we2 : EntityIn :=
  { label := "Tesla", type := "COMPANY", properties := []
  , confidence := some (Rat.mk' 1 2), aliases := some [] }

def c6went : Entity :=
  { label := "Tesla", type := "COMPANY", properties := mergeProps [] (HybridNLPProcessor.localStamp "t")
  , confidence := 1, aliases := [] }

/-- First-defined-value choice on optional property values, used to state
the shallow-merge semantics. -/
def firstSome (a b : Option PVal) : Option PVal :=
  match a with
  | some v => some v
  | none => b

/-! ### Helper lemmas -/

theorem lookupProp_append (k : String) (xs ys : List (String × PVal)) :
    lookupProp k (xs ++ ys) = firstSome (lookupProp k xs) (lookupProp k ys) := by
  induction xs with
  | nil => simp [lookupProp, firstSome]
  | cons kv rest ih =>
    by_cases h : kv.1 == k
    · simp [lookupProp, h, firstSome]
    · simp [lookupProp, h, ih]

theorem mem_insertSorted {α : Type} (le : α → α → Bool) (x a : α) (l : List α) :
    a ∈ insertSorted le x l ↔ a = x ∨ a ∈ l := by
  induction l with
  | nil => simp [insertSorted]
  | cons y ys ih =>
    simp only [insertSorted]
    split
    · simp [List.mem_cons]
    · simp only [List.mem_cons, ih]
      tauto

theorem mem_sortStable {α : Type} (le : α → α → Bool) (a : α) (l : List α) :
    a ∈ sortStable le l ↔ a ∈ l := by
  induction l with
  | nil => simp [sortStable]
  | cons x xs ih => simp [sortStable, mem_insertSorted, ih]

theorem upsertIntoList_eq_none (e : EntityIn) :
    ∀ ns : List Node, (∀ n ∈ ns, EnhancedNeo4jService.mergeKey e n = false) →
      EnhancedNeo4jService.upsertIntoList e ns = none := by
  intro ns
  induction ns with
  | nil => intro _; rfl
  | cons m rest ih =>
    intro h
    have hm : EnhancedNeo4jService.mergeKey e m = false := h m (List.mem_cons_self m rest)
    simp [EnhancedNeo4jService.upsertIntoList, hm,
      ih (fun n hn => h n (List.mem_cons_of_mem _ hn))]

theorem upsertIntoList_last (e : EntityIn) (n0 : Node)
    (h0 : EnhancedNeo4jService.mergeKey e n0 = true) :
    ∀ ns : List Node, (∀ n ∈ ns, EnhancedNeo4jService.mergeKey e n = false) →
      EnhancedNeo4jService.upsertIntoList e (ns ++ [n0]) =
        some (EnhancedNeo4jService.applyOnMatch n0 e,
          ns ++ [EnhancedNeo4jService.applyOnMatch n0 e]) := by
  intro ns
  induction ns with
  | nil =>
    intro _
    simp [EnhancedNeo4jService.upsertIntoList, h0]
  | cons m rest ih =>
    intro h
    have hm : EnhancedNeo4jService.mergeKey e m = false := h m (List.mem_cons_self m rest)
    simp [List.cons_append, EnhancedNeo4jService.upsertIntoList, hm,
      ih (fun n hn => h n (List.mem_cons_of_mem _ hn))]

theorem upsertIntoList_find? (e : EntityIn) :
    ∀ (ns : List Node) (n : Node), ns.find? (EnhancedNeo4jService.mergeKey e) = some n →
      ∃ ns', EnhancedNeo4jService.upsertIntoList e ns =
        some (EnhancedNeo4jService.applyOnMatch n e, ns') := by
  intro ns
  induction ns with
  | nil => intro n h; simp at h
  | cons m rest ih =>
    intro n h
    by_cases hk : EnhancedNeo4jService.mergeKey e m = true
    · rw [List.find?_cons_of_pos _ hk] at h
      injection h with h
      subst h
      refine ⟨EnhancedNeo4jService.applyOnMatch m e :: rest, ?_⟩
      simp [EnhancedNeo4jService.upsertIntoList, hk]
    · rw [List.find?_cons_of_neg _ hk] at h
      obtain ⟨ns', hu⟩ := ih n h
      refine ⟨m :: ns', ?_⟩
      simp only [EnhancedNeo4jService.upsertIntoList]
      rw [if_neg hk, hu]

theorem ite_lt_eq_max (a b : ℚ) : (if a < b then b else a) = max a b := by
  rcases le_or_lt b a with h | h
  · rw [if_neg (not_lt.mpr h), max_eq_left h]
  · rw [if_pos h, max_eq_right h.le]

theorem flatten_map_nil {α β : Type} (l : List α) :
    (l.map (fun _ => ([] : List β))).flatten = [] := by
  induction l <;> simp_all

theorem mem_local_filterEntitiesGo :
    ∀ (es : List Entity) (seen : List String) (e : Entity),
      e ∈ LocalNLPProcessor.filterEntitiesGo seen es → 1 < (lowerStr e.label).length := by
  intro es
  induction es with
  | nil => intro seen e h; simp [LocalNLPProcessor.filterEntitiesGo] at h
  | cons a rest ih =>
    intro seen e h
    simp only [LocalNLPProcessor.filterEntitiesGo] at h
    split at h
    · rcases List.mem_cons.mp h with rfl | h2
      · rename_i hc
        have h1 := (Bool.and_eq_true _ _).mp hc |>.1
        exact of_decide_eq_true h1
      · exact ih _ _ h2
    · exact ih _ _ h

theorem mem_gemini_filterEntitiesGo :
    ∀ (es : List Entity) (seen : List String) (e : Entity),
      e ∈ GeminiNLPProcessor.filterEntitiesGo seen es →
        0 < (trimStr (lowerStr e.label)).length := by
  intro es
  induction es with
  | nil => intro seen e h; simp [GeminiNLPProcessor.filterEntitiesGo] at h
  | cons a rest ih =>
    intro seen e h
    simp only [GeminiNLPProcessor.filterEntitiesGo] at h
    split at h
    · exact ih _ _ h
    · split at h
      · exact ih _ _ h
      · split at h
        · rcases List.mem_cons.mp h with rfl | h2
          · rename_i hc
            have h1 := (Bool.and_eq_true _ _).mp ((Bool.and_eq_true _ _).mp hc).1 |>.1
            exact of_decide_eq_true h1
          · exact ih _ _ h2
        · exact ih _ _ h

/-! ### Claim theorems -/

open EnhancedNeo4jService

/-- Claim C1, counterexample.  The claim states that on the second upsert
of an existing (label, type) key the stored confidence becomes
max(existing, incoming), staying unchanged when the incoming confidence
is lower.  Upserting (Apple, COMPANY) with confidence 1/2 and then again
with the lower incoming confidence 0 must therefore leave the stored
confidence at 1/2; the code instead applies the JS default
entity.confidence || 0.8, which treats the falsy 0 as absent, and stores
0.8. -/
theorem C1_zero_confidence_counterexample :
    (createEntityWithMerge c1g1 c1e2).1.nconfidence = q08 ∧
    ¬((createEntityWithMerge c1g1 c1e2).1.nconfidence = Rat.mk' 1 2) ∧
    (createEntityWithMerge c1g1 c1e2).2.nodes.length = 1 := by
  decide

/-- Claim C1 (amended): upserting the same (label, type) twice yields
exactly one stored entity with that merge key, and on the second upsert
the stored confidence becomes max(existing, effective incoming), where
the effective incoming confidence is the incoming one when it is present
and nonzero and the default 0.8 otherwise; it is unchanged when the
effective incoming confidence is equal or lower and updated when it is
strictly higher. -/
theorem C1_upsert_confidence_max (g : Graph) (e1 e2 : EntityIn)
    (hL : e2.label = e1.label) (hT : e2.type = e1.type)
    (hfresh : ∀ n ∈ g.nodes, ¬(n.ntype = e1.type ∧ n.nlabel = e1.label)) :
    (createEntityWithMerge (createEntityWithMerge g e1).2 e2).2.nodes.filter
        (mergeKey e1) =
      [(createEntityWithMerge (createEntityWithMerge g e1).2 e2).1]
    ∧ (createEntityWithMerge (createEntityWithMerge g e1).2 e2).1.nconfidence =
      max (createEntityWithMerge g e1).1.nconfidence (jsOrQ e2.confidence q08) := by
  have hfreshB : ∀ n ∈ g.nodes, mergeKey e1 n = false := by
    intro n hn
    have hB : ¬(mergeKey e1 n = true) := by
      simpa [mergeKey, Bool.and_eq_true, beq_iff_eq] using hfresh n hn
    simpa using hB
  have h1 : upsertIntoList e1 g.nodes = none := upsertIntoList_eq_none e1 g.nodes hfreshB
  have hg1 : createEntityWithMerge g e1 =
      (applyOnCreate g.nextId e1,
        { g with nodes := g.nodes ++ [applyOnCreate g.nextId e1], nextId := g.nextId + 1 }) := by
    simp [createEntityWithMerge, h1]
  have hkey0 : mergeKey e2 (applyOnCreate g.nextId e1) = true := by
    simp [mergeKey, applyOnCreate, hL, hT]
  have hfresh2 : ∀ n ∈ g.nodes, mergeKey e2 n = false := by
    intro n hn
    have := hfreshB n hn
    simpa [mergeKey, hL, hT] using this
  have h2 : upsertIntoList e2 (g.nodes ++ [applyOnCreate g.nextId e1]) =
      some (applyOnMatch (applyOnCreate g.nextId e1) e2,
        g.nodes ++ [applyOnMatch (applyOnCreate g.nextId e1) e2]) :=
    upsertIntoList_last e2 _ hkey0 g.nodes hfresh2
  have hg2 : createEntityWithMerge (createEntityWithMerge g e1).2 e2 =
      (applyOnMatch (applyOnCreate g.nextId e1) e2,
        { g with
            nodes := g.nodes ++ [applyOnMatch (applyOnCreate g.nextId e1) e2]
            nextId := g.nextId + 1 }) := by
    rw [hg1]
    simp [createEntityWithMerge, h2]
  rw [hg2, hg1]
  constructor
  · rw [List.filter_append]
    have hnil : g.nodes.filter (mergeKey e1) = [] :=
      List.filter_eq_nil_iff.mpr (fun n hn => by simp [hfreshB n hn])
    have hupd : mergeKey e1 (applyOnMatch (applyOnCreate g.nextId e1) e2) = true := by
      simp [mergeKey, applyOnMatch, applyOnCreate]
    simp [hnil, hupd]
  · simp only [applyOnMatch]
    exact ite_lt_eq_max _ _

/-- Claim C1, witness for the amended theorem at a concrete input. -/
theorem C1_upsert_confidence_max_witness :
    (createEntityWithMerge (createEntityWithMerge emptyStore c1we1).2 c1we2).1.nconfidence =
      max (createEntityWithMerge emptyStore c1we1).1.nconfidence (jsOrQ c1we2.confidence q08) :=
  (C1_upsert_confidence_max emptyStore c1we1 c1we2 rfl rfl (by simp [emptyStore])).2

/-- Claim C2, counterexample.  The triple (Apple, R, Bob) is persisted by
the first call, whose endpoint resolution (case-insensitive) picks the
node labelled apple while the exact-label creation query attaches the
edge to the node labelled Apple.  The second, identical reconciliation
call resolves the same endpoints, finds no edge between the RESOLVED ids,
and creates a second identical edge: the store then holds two edges for
one (source id, type, target id) triple. -/
theorem C2_duplicate_edge_counterexample :
    ((c2call c2g0).2.edges.map (fun e => (e.esrc, e.etype, e.etgt)) = [(1, "R", 2)]) ∧
    ((c2call (c2call c2g0).2).2.edges.map (fun e => (e.esrc, e.etype, e.etgt)) =
      [(1, "R", 2), (1, "R", 2)]) := by
  decide

/-- Claim C2 (amended): when an edge of the requested type already exists
between the endpoints found by resolution, a second reconciliation call
for the triple detects the existing edge, returns it unchanged, and
leaves the graph exactly as it was, creating nothing; the at-most-one-edge
guarantee is keyed by the resolved endpoint ids, and can fail when
resolution picks a different node than the exact-label creation match. -/
theorem C2_existing_edge_returned (g : Graph)
    (sourceLabel targetLabel sourceType targetType relationshipType : String)
    (properties : List (String × PVal)) (propsConfidence : Option ℚ) (s t : Node) (ed : Edge)
    (hs : findEntityByLabelAndType g sourceLabel sourceType = some s)
    (ht : findEntityByLabelAndType g targetLabel targetType = some t)
    (he : findRelationship g s.nid t.nid relationshipType = some ed) :
    createRelationshipWithValidation g sourceLabel targetLabel sourceType targetType
      relationshipType properties propsConfidence = (some ed, g) := by
  simp [createRelationshipWithValidation, hs, ht, he]

/-- Claim C2, witness for the amended theorem at a concrete store. -/
theorem C2_existing_edge_returned_witness :
    createRelationshipWithValidation c2wg "Apple" "Steve" "COMPANY" "PERSON" "FOUNDED_BY"
      [] none = (some c2we, c2wg) :=
  C2_existing_edge_returned c2wg "Apple" "Steve" "COMPANY" "PERSON" "FOUNDED_BY" [] none
    c2wa c2wb c2we (by decide) (by decide) (by decide)

/-- Claim C3: when the source or the target endpoint cannot be resolved,
createRelationshipWithValidation returns a null result rather than
throwing, and the graph is unchanged, so no edge is created. -/
theorem C3_missing_endpoint_returns_none (g : Graph)
    (sourceLabel targetLabel sourceType targetType relationshipType : String)
    (properties : List (String × PVal)) (propsConfidence : Option ℚ)
    (h : findEntityByLabelAndType g sourceLabel sourceType = none ∨
      findEntityByLabelAndType g targetLabel targetType = none) :
    createRelationshipWithValidation g sourceLabel targetLabel sourceType targetType
      relationshipType properties propsConfidence = (none, g) := by
  rcases h with h | h
  · simp [createRelationshipWithValidation, h]
  · cases hfs : findEntityByLabelAndType g sourceLabel sourceType <;>
      simp [createRelationshipWithValidation, hfs, h]

/-- Claim C3, witness: a relationship request against the empty store
resolves neither endpoint and returns null with the store unchanged. -/
theorem C3_missing_endpoint_returns_none_witness :
    createRelationshipWithValidation emptyStore "Apple" "Steve" "COMPANY" "PERSON" "OWNS"
      [] none = (none, emptyStore) :=
  C3_missing_endpoint_returns_none emptyStore "Apple" "Steve" "COMPANY" "PERSON" "OWNS"
    [] none (Or.inl (by decide))

/-- Claim C4: on both extraction strategies, every relationship that
survives filtering has case-foldedly different source and target, so no
self loop survives filtering. -/
theorem C4_no_self_loop_survives (rels : List Relationship) (ents : List Entity)
    (r : Relationship) :
    (r ∈ LocalNLPProcessor.filterRelationships rels ents →
      lowerStr r.source ≠ lowerStr r.target)
    ∧ (r ∈ GeminiNLPProcessor.filterRelationships rels ents →
      lowerStr r.source ≠ lowerStr r.target) := by
  constructor
  · intro h
    simp only [LocalNLPProcessor.filterRelationships] at h
    have hp := (List.mem_filter.mp h).2
    simp only [Bool.and_eq_true, bne_iff_ne] at hp
    exact hp.2
  · intro h
    simp only [GeminiNLPProcessor.filterRelationships] at h
    have hp := (List.mem_filter.mp h).2
    simp only [Bool.and_eq_true, bne_iff_ne] at hp
    exact hp.1.2

/-- Claim C4, witness: a concrete surviving relationship on each strategy
has case-foldedly different endpoints. -/
theorem C4_no_self_loop_survives_witness :
    lowerStr c4rel1.source ≠ lowerStr c4rel1.target ∧
    lowerStr c4rel2.source ≠ lowerStr c4rel2.target :=
  ⟨(C4_no_self_loop_survives [c4rel1] c4ents c4rel1).1 (by decide),
   (C4_no_self_loop_survives [c4rel2] c4ents c4rel2).2 (by decide)⟩

/-- Claim C5: with the External strategy configured, its result is
returned verbatim whenever it succeeds with at least one entity or
relationship; when it fails (is unavailable) or returns zero entities and
zero relationships, the coordinator returns exactly the Local result of
the same input with the method=local stamp, and that stamp changes no
label, type, confidence, alias or endpoint, so the two strategies are
never merged. -/
theorem C5_coordinator_fallback (gemini : Option ExtractionResult) (text : String) :
    (∀ r, gemini = some r → (0 < r.entities.length ∨ 0 < r.relationships.length) →
      HybridNLPProcessor.extractEntitiesAndRelationships true gemini text = r)
    ∧ ((gemini = none ∨ gemini = some { entities := [], relationships := [] }) →
      HybridNLPProcessor.extractEntitiesAndRelationships true gemini text =
        HybridNLPProcessor.enhanceLocalResults
          (LocalNLPProcessor.extractEntitiesAndRelationships text) text)
    ∧ ((HybridNLPProcessor.enhanceLocalResults
          (LocalNLPProcessor.extractEntitiesAndRelationships text) text).entities.map
        (fun e => (e.label, e.type, e.confidence, e.aliases)) =
      (LocalNLPProcessor.extractEntitiesAndRelationships text).entities.map
        (fun e => (e.label, e.type, e.confidence, e.aliases)))
    ∧ ((HybridNLPProcessor.enhanceLocalResults
          (LocalNLPProcessor.extractEntitiesAndRelationships text) text).relationships.map
        (fun r => (r.source, r.target, r.type, r.confidence, r.context)) =
      (LocalNLPProcessor.extractEntitiesAndRelationships text).relationships.map
        (fun r => (r.source, r.target, r.type, r.confidence, r.context))) := by
  refine ⟨?_, ?_, ?_, ?_⟩
  · intro r hr hne
    subst hr
    rcases hne with h | h <;>
      simp [HybridNLPProcessor.extractEntitiesAndRelationships, h]
  · intro h
    rcases h with h | h <;> subst h <;>
      simp [HybridNLPProcessor.extractEntitiesAndRelationships]
  · simp only [HybridNLPProcessor.enhanceLocalResults]
    rw [List.map_map]
    rfl
  · simp only [HybridNLPProcessor.enhanceLocalResults]
    rw [List.map_map]
    rfl

/-- Claim C5, witness: with the External strategy configured but failing,
the coordinator output on a concrete input is the stamped Local result. -/
theorem C5_coordinator_fallback_witness :
    HybridNLPProcessor.extractEntitiesAndRelationships true none "Tesla" =
      HybridNLPProcessor.enhanceLocalResults
        (LocalNLPProcessor.extractEntitiesAndRelationships "Tesla") "Tesla" :=
  (C5_coordinator_fallback none "Tesla").2.1 (Or.inl rfl)

/-- Claim C6, counterexample.  On a run where the External strategy is
not configured, the Local fallback produces the result, yet the response
tag computed by the route is gemini, because the tag is keyed on the
extracted entity count rather than on the strategy that ran; it is
neither local nor the spec value external. -/
theorem C6_method_tag_counterexample :
    processingMethodTag (HybridNLPProcessor.extractEntitiesAndRelationships false none "Apple")
      = "gemini" ∧
    processingMethodTag (HybridNLPProcessor.extractEntitiesAndRelationships false none "Apple")
      ≠ "local" ∧
    processingMethodTag (HybridNLPProcessor.extractEntitiesAndRelationships false none "Apple")
      ≠ "external" := by
  decide

/-- Claim C6 (amended): the processing-method tag of the response is an
element of the set containing gemini and local; it is gemini exactly when
the extraction result holds at least one entity, regardless of which
strategy produced it, and local otherwise; and on the local fallback path
every entity and relationship carries processingMethod=local in its
properties. -/
theorem C6_method_tag_amended (res : ExtractionResult) (text : String) :
    (processingMethodTag res = "gemini" ∨ processingMethodTag res = "local")
    ∧ (processingMethodTag res = "gemini" ↔ res.entities ≠ [])
    ∧ (∀ e ∈ (HybridNLPProcessor.enhanceLocalResults res text).entities,
        lookupProp "processingMethod" e.properties = some (.s "local"))
    ∧ (∀ r ∈ (HybridNLPProcessor.enhanceLocalResults res text).relationships,
        lookupProp "processingMethod" r.properties = some (.s "local")) := by
  refine ⟨?_, ?_, ?_, ?_⟩
  · by_cases h : 0 < res.entities.length <;> simp [processingMethodTag, h]
  · rcases Nat.eq_zero_or_pos res.entities.length with hz | hp
    · have hnil : res.entities = [] := List.eq_nil_of_length_eq_zero hz
      simp [processingMethodTag, hnil]
    · have hne : res.entities ≠ [] := List.length_pos.mp hp
      simp [processingMethodTag, hp, hne]
  · intro e he
    simp only [HybridNLPProcessor.enhanceLocalResults, List.mem_map] at he
    obtain ⟨x, _, rfl⟩ := he
    rfl
  · intro r hr
    simp only [HybridNLPProcessor.enhanceLocalResults, List.mem_map] at hr
    obtain ⟨x, _, rfl⟩ := hr
    rfl

/-- Claim C6, witness for the amended theorem at a concrete result. -/
theorem C6_method_tag_amended_witness :
    (processingMethodTag c6res = "gemini" ∨ processingMethodTag c6res = "local") ∧
    lookupProp "processingMethod" c6went.properties = some (.s "local") :=
  ⟨(C6_method_tag_amended c6res "t").1,
   (C6_method_tag_amended c6res "t").2.2.1 c6went (by decide)⟩

/-- Claim C7: on a merge conflict, the stored alias set becomes the set
union of existing and incoming aliases (the stored list is their
concatenation, whose membership is exactly the union), and the stored
properties are the shallow merge of existing and incoming with incoming
values taking precedence key by key. -/
theorem C7_alias_union_props_merge (g : Graph) (e : EntityIn) (n : Node)
    (hfind : g.nodes.find? (mergeKey e) = some n) :
    (∀ a, a ∈ (createEntityWithMerge g e).1.naliases ↔
      (a ∈ n.naliases ∨ a ∈ e.aliases.getD []))
    ∧ (∀ k, lookupProp k (createEntityWithMerge g e).1.nprops =
      firstSome (lookupProp k e.properties) (lookupProp k n.nprops)) := by
  obtain ⟨ns', hu⟩ := upsertIntoList_find? e g.nodes n hfind
  have hr : (createEntityWithMerge g e).1 = applyOnMatch n e := by
    simp [createEntityWithMerge, hu]
  rw [hr]
  constructor
  · intro a
    simp [applyOnMatch, List.mem_append]
  · intro k
    simp only [applyOnMatch, mergeProps]
    exact lookupProp_append k e.properties n.nprops

/-- Claim C7, witness at a concrete store: the alias y is unioned in and
the incoming value of key p wins over the stored one. -/
theorem C7_alias_union_props_merge_witness :
    ("y" ∈ (createEntityWithMerge c7g c7e).1.naliases ↔
      ("y" ∈ c7n.naliases ∨ "y" ∈ c7e.aliases.getD [])) ∧
    lookupProp "p" (createEntityWithMerge c7g c7e).1.nprops =
      firstSome (lookupProp "p" c7e.properties) (lookupProp "p" c7n.nprops) :=
  ⟨(C7_alias_union_props_merge c7g c7e c7n (by decide)).1 "y",
   (C7_alias_union_props_merge c7g c7e c7n (by decide)).2 "p"⟩

/-- Claim C8, counterexample.  The model-backed filter keeps the entity
labelled with the single exclamation mark: the label is truthy, not
technical, its normalized form is non-empty, and it is neither an
article, a quantifier, a numeral nor a single letter; yet its normalized,
case-folded and trimmed label has length one, not longer than one
character as claimed. -/
theorem C8_short_label_counterexample :
    c8bang ∈ GeminiNLPProcessor.filterEntities [c8bang] ∧
    ¬(1 < (trimStr (lowerStr c8bang.label)).length) := by
  decide

/-- Claim C8 (amended): every entity surviving the rule-based filter has
a case-folded label longer than one character (the rule-based filter does
not trim), and every entity surviving the model-backed filter has a
non-empty case-folded trimmed label; the model-backed filter admits
length-one labels when they are not a letter or a digit. -/
theorem C8_label_length_amended (es : List Entity) (e : Entity) :
    (e ∈ LocalNLPProcessor.filterEntities es → 1 < (lowerStr e.label).length)
    ∧ (e ∈ GeminiNLPProcessor.filterEntities es →
      0 < (trimStr (lowerStr e.label)).length) := by
  constructor
  · intro h
    simp only [LocalNLPProcessor.filterEntities] at h
    exact mem_local_filterEntitiesGo es [] e ((mem_sortStable _ e _).mp h)
  · intro h
    simp only [GeminiNLPProcessor.filterEntities] at h
    exact mem_gemini_filterEntitiesGo es [] e ((mem_sortStable _ e _).mp h)

/-- Claim C8, witness for the amended theorem: a concrete entity that
survives both filters satisfies both normalized-label bounds. -/
theorem C8_label_length_amended_witness :
    (1 < (lowerStr c8w.label).length) ∧ (0 < (trimStr (lowerStr c8w.label)).length) :=
  ⟨(C8_label_length_amended [c8w] c8w).1 (by decide),
   (C8_label_length_amended [c8w] c8w).2 (by decide)⟩

/-- Claim C9: evaluation of the rule-based extraction on the canonical
input.  The actual output refutes the claimed one: eight entities survive
(the generic capitalized-word pass also extracts Steve, Jobs, Elon and
Musk as separate concepts, and capitalizeFirst lower-cases the later
words of Steve Jobs and Elon Musk), and the only extracted relationship
is Musk OWNS Tesla, because no founded-by rule exists in
RELATIONSHIP_PATTERNS and the single-word captures of the verb rules can
never equal the two-word labels Steve Jobs or Elon Musk. -/
theorem C9_local_extraction_actual_output :
    ((LocalNLPProcessor.extractEntitiesAndRelationships T9).entities.map
        (fun e => (e.label, e.type)) =
      [("Apple", "PERSON"), ("Steve jobs", "PERSON"), ("Elon musk", "PERSON"),
       ("Tesla", "PERSON"), ("Steve", "CONCEPT"), ("Jobs", "CONCEPT"), ("Elon", "CONCEPT"),
       ("Musk", "CONCEPT")])
    ∧ ((LocalNLPProcessor.extractEntitiesAndRelationships T9).relationships.map
        (fun r => (r.source, r.type, r.target)) = [("Musk", "OWNS", "Tesla")]) := by
  decide

/-- Claim C10, counterexample.  When the requested edge already exists
between the RESOLVED endpoints, a call whose endpoint is found only via a
differently-cased label returns that existing edge, not null: the claim
that every such call returns null fails. -/
theorem C10_existing_edge_counterexample :
    findEntityByLabelAndType c10g "APPLE" "COMPANY" = some c10a ∧
    c10g.nodes.filter (fun n => n.ntype == "COMPANY" && n.nlabel == "APPLE") = [] ∧
    (createRelationshipWithValidation c10g "APPLE" "Steve" "COMPANY" "PERSON" "OWNS"
      [] none).1 = some c10e ∧
    ¬((createRelationshipWithValidation c10g "APPLE" "Steve" "COMPANY" "PERSON" "OWNS"
      [] none).1 = none) := by
  decide

/-- Claim C10 (amended): endpoint resolution and edge creation use
different matching rules.  When both endpoints resolve (possibly through
an alias or a differently-cased label), no edge of the requested type
exists between the resolved ids, and the exact-label creation match finds
no node for the source or for the target, the call returns null and
creates no edge even though endpoint validation succeeded. -/
theorem C10_exact_label_mismatch_returns_none (g : Graph)
    (sourceLabel targetLabel sourceType targetType relationshipType : String)
    (properties : List (String × PVal)) (propsConfidence : Option ℚ) (s t : Node)
    (hs : findEntityByLabelAndType g sourceLabel sourceType = some s)
    (ht : findEntityByLabelAndType g targetLabel targetType = some t)
    (hnoe : findRelationship g s.nid t.nid relationshipType = none)
    (hexact :
      g.nodes.filter (fun n => n.ntype == sourceType && n.nlabel == sourceLabel) = [] ∨
      g.nodes.filter (fun n => n.ntype == targetType && n.nlabel == targetLabel) = []) :
    createRelationshipWithValidation g sourceLabel targetLabel sourceType targetType
      relationshipType properties propsConfidence = (none, g) := by
  simp only [createRelationshipWithValidation, hs, ht, hnoe]
  rcases hexact with h | h
  · rw [h]
    simp
  · rw [h]
    simp [flatten_map_nil]

/-- Claim C10, witness for the amended theorem: with no pre-existing
edge, the call that resolved its source only case-insensitively returns
null and leaves the store unchanged. -/
theorem C10_exact_label_mismatch_returns_none_witness :
    createRelationshipWithValidation c10wg "APPLE" "Steve" "COMPANY" "PERSON" "OWNS"
      [] none = (none, c10wg) :=
  C10_exact_label_mismatch_returns_none c10wg "APPLE" "Steve" "COMPANY" "PERSON" "OWNS"
    [] none c10a c10b (by decide) (by decide) (by decide) (Or.inl (by decide))
